import Mathlib

/-!
Verification development for the ncp file-transfer tool (C implementation,
`csrc/`).  The C sources are shallowly embedded: the wire codec of
`protocol.c` becomes functions from messages to byte lists (bytes are `Nat`
values, written big-endian exactly as `htonl`/`my_htonll` put them on the
wire) and stream readers become functions consuming a byte list; the
receiver logic of `recv.c` becomes pure functions parameterised by the
outcomes of the external OS calls (stat, prompt, statvfs, unlink, mkdir,
rename, socket reads); the walker of `directory.c` runs over an inductive
filesystem tree.  Machine integers are `Nat` with explicit `% 2^w` where
C's fixed-width arithmetic can wrap.
-/

namespace NCP

/-! ## Wire codec (csrc/protocol.c)

A wire byte is a `Nat` (writers only emit values `< 256` for fixed fields;
string payload bytes are carried through unchanged).  C strings (`char*`)
are `Option (List Nat)`: `none` is the NULL pointer, `some bs` a string
with byte content `bs` (NUL-free by the C string invariant). -/

/-- The four bytes `htonl` stores for a `uint32_t`, big-endian.  Values
`≥ 2^32` are truncated exactly as the C conversion to `uint32_t` does. -/
def be32 (n : Nat) : List Nat :=
  [n / 2 ^ 24 % 256, n / 2 ^ 16 % 256, n / 2 ^ 8 % 256, n % 256]

/-- The eight bytes `my_htonll` stores for a `uint64_t`, big-endian. -/
def be64 (n : Nat) : List Nat :=
  [n / 2 ^ 56 % 256, n / 2 ^ 48 % 256, n / 2 ^ 40 % 256, n / 2 ^ 32 % 256,
   n / 2 ^ 24 % 256, n / 2 ^ 16 % 256, n / 2 ^ 8 % 256, n % 256]

/-- `fread` of one byte: fails (returns -1 in C) when the stream is empty. -/
def read_u8 (s : List Nat) : Option (Nat × List Nat) :=
  match s with
  | [] => none
  | b :: rest => some (b, rest)

/-- `fread` of 4 bytes followed by `ntohl`. -/
def read_u32 (s : List Nat) : Option (Nat × List Nat) :=
  match s with
  | a :: b :: c :: d :: rest => some (((a * 256 + b) * 256 + c) * 256 + d, rest)
  | _ => none

/-- `fread` of 8 bytes followed by `my_ntohll`. -/
def read_u64 (s : List Nat) : Option (Nat × List Nat) :=
  match s with
  | b0 :: b1 :: b2 :: b3 :: b4 :: b5 :: b6 :: b7 :: rest =>
      some ((((((((b0 * 256 + b1) * 256 + b2) * 256 + b3) * 256 + b4)
        * 256 + b5) * 256 + b6) * 256 + b7), rest)
  | _ => none

/-- `FileMeta` of protocol.h: `name` is `char*` (`none` = NULL), `size` a
`uint64_t`, `is_dir` an `int` used as a flag (the wire carries `≠ 0`),
`overwrite_mode` a raw `uint8_t` (0 ask, 1 yes, 2 no). -/
structure FileMeta where
  name : Option (List Nat)
  size : Nat
  is_dir : Bool
  overwrite_mode : Nat
deriving DecidableEq

structure PreflightOk where
  available_space : Nat
deriving DecidableEq

structure PreflightFail where
  reason : Option (List Nat)
deriving DecidableEq

structure TransferStart where
  file_size : Nat
deriving DecidableEq

structure TransferResult where
  ok : Bool
  received_bytes : Nat
deriving DecidableEq

/-- Message type tags of protocol.h. -/
def MSG_META : Nat := 1
def MSG_PREFLIGHT_OK : Nat := 2
def MSG_PREFLIGHT_FAIL : Nat := 3
def MSG_TRANSFER_START : Nat := 4
def MSG_TRANSFER_RESULT : Nat := 5

/-- `write_string`: NULL writes a zero u32 and nothing else; otherwise a
u32 length prefix (`strlen` truncated to `uint32_t`) then that many bytes. -/
def write_string (s : Option (List Nat)) : List Nat :=
  match s with
  | none => be32 0
  | some str =>
      let len := str.length % 2 ^ 32
      be32 len ++ str.take len

/-- `read_string`: reads the u32 length; a zero length yields the NULL
string (`none`), otherwise exactly `len` bytes are consumed. -/
def read_string (s : List Nat) : Option (Option (List Nat) × List Nat) :=
  match read_u32 s with
  | none => none
  | some (len, rest) =>
      if len = 0 then some (none, rest)
      else if rest.length < len then none
      else some (some (rest.take len), rest.drop len)

/-- `write_meta`: type byte 1, u32 frame length `8+1+1+4+name_len`
(computed in `uint32_t` arithmetic), then size, is_dir, overwrite_mode and
the length-prefixed name. -/
def write_meta (m : FileMeta) : List Nat :=
  let name_len := (match m.name with | none => 0 | some s => s.length) % 2 ^ 32
  let len := (8 + 1 + 1 + 4 + name_len) % 2 ^ 32
  MSG_META :: be32 len ++ be64 m.size ++ [if m.is_dir then 1 else 0]
    ++ [m.overwrite_mode % 256] ++ write_string m.name

/-- `read_meta`: payload reader (the caller has already consumed the type
and length bytes): size, is_dir, overwrite_mode, then the name string. -/
def read_meta (s : List Nat) : Option (FileMeta × List Nat) := do
  let (size, s) ← read_u64 s
  let (d, s) ← read_u8 s
  let (ow, s) ← read_u8 s
  let (name, s) ← read_string s
  pure ({ name := name, size := size, is_dir := d ≠ 0, overwrite_mode := ow }, s)

/-- `write_preflight_ok`: type 2, length 8, then the u64 available space. -/
def write_preflight_ok (m : PreflightOk) : List Nat :=
  MSG_PREFLIGHT_OK :: be32 8 ++ be64 m.available_space

def read_preflight_ok (s : List Nat) : Option (PreflightOk × List Nat) := do
  let (sp, s) ← read_u64 s
  pure ({ available_space := sp }, s)

/-- `write_preflight_fail`: type 3, u32 length `4 + reason_len`, then the
length-prefixed reason string. -/
def write_preflight_fail (m : PreflightFail) : List Nat :=
  let reason_len := (match m.reason with | none => 0 | some s => s.length) % 2 ^ 32
  let len := (4 + reason_len) % 2 ^ 32
  MSG_PREFLIGHT_FAIL :: be32 len ++ write_string m.reason

def read_preflight_fail (s : List Nat) : Option (PreflightFail × List Nat) := do
  let (r, s) ← read_string s
  pure ({ reason := r }, s)

/-- `write_transfer_start`: type 4, length 8, then the u64 file size. -/
def write_transfer_start (m : TransferStart) : List Nat :=
  MSG_TRANSFER_START :: be32 8 ++ be64 m.file_size

def read_transfer_start (s : List Nat) : Option (TransferStart × List Nat) := do
  let (sz, s) ← read_u64 s
  pure ({ file_size := sz }, s)

/-- `write_transfer_result`: type 5, length 9, then the ok byte and the
u64 received-byte count. -/
def write_transfer_result (m : TransferResult) : List Nat :=
  MSG_TRANSFER_RESULT :: be32 9 ++ [if m.ok then 1 else 0] ++ be64 m.received_bytes

def read_transfer_result (s : List Nat) : Option (TransferResult × List Nat) := do
  let (okb, s) ← read_u8 s
  let (b, s) ← read_u64 s
  pure ({ ok := okb ≠ 0, received_bytes := b }, s)

/-- `read_message_type`: one byte. -/
def read_message_type : List Nat → Option (Nat × List Nat) := read_u8

/-- `read_message_length`: four bytes, `ntohl`. -/
def read_message_length : List Nat → Option (Nat × List Nat) := read_u32

/-- Receive path for a Meta frame as `handle_connection` performs it:
type byte (checked against `MSG_META`), length (read but not validated),
then `read_meta`. -/
def decode_meta (s : List Nat) : Option (FileMeta × List Nat) := do
  let (t, s) ← read_message_type s
  if t = MSG_META then
    let (_, s) ← read_message_length s
    read_meta s
  else none

/-- Receive path for a PreflightOk frame as the sender performs it. -/
def decode_preflight_ok (s : List Nat) : Option (PreflightOk × List Nat) := do
  let (t, s) ← read_message_type s
  if t = MSG_PREFLIGHT_OK then
    let (_, s) ← read_message_length s
    read_preflight_ok s
  else none

/-- Receive path for a PreflightFail frame as the sender performs it. -/
def decode_preflight_fail (s : List Nat) : Option (PreflightFail × List Nat) := do
  let (t, s) ← read_message_type s
  if t = MSG_PREFLIGHT_FAIL then
    let (_, s) ← read_message_length s
    read_preflight_fail s
  else none

/-- Receive path for a TransferStart frame as `handle_file_entry`
performs it. -/
def decode_transfer_start (s : List Nat) : Option (TransferStart × List Nat) := do
  let (t, s) ← read_message_type s
  if t = MSG_TRANSFER_START then
    let (_, s) ← read_message_length s
    read_transfer_start s
  else none

/-- `read_transfer_result_full`: type byte checked against
`MSG_TRANSFER_RESULT`, length, then the payload. -/
def decode_transfer_result (s : List Nat) : Option (TransferResult × List Nat) := do
  let (t, s) ← read_message_type s
  if t = MSG_TRANSFER_RESULT then
    let (_, s) ← read_message_length s
    read_transfer_result s
  else none

/-- A `char*` viewed as a sequence the wire format can carry: either NULL
or a nonempty string whose length fits the u32 length prefix. -/
def strOK (s : Option (List Nat)) : Bool :=
  match s with
  | none => true
  | some l => !l.isEmpty && decide (l.length < 2 ^ 32)

/-- `strlen` of a `char*`, with NULL counting as 0, as `write_meta` and
`write_preflight_fail` compute their name/reason length. -/
def name_len (s : Option (List Nat)) : Nat :=
  match s with
  | none => 0
  | some l => l.length

/-- Value of the 4-byte big-endian length field of an encoded frame. -/
def frame_len_field (f : List Nat) : Option Nat :=
  (read_message_length (f.drop 1)).map Prod.fst

/-- The payload of an encoded frame: everything after the type byte and
the 4-byte length field. -/
def frame_payload (f : List Nat) : List Nat := f.drop 5

/-! ## Disk space (csrc/diskspace.c)

`get_available_space` consults the OS (`statvfs`); the embedding takes the
query outcome as a parameter: `none` models a failed `statvfs`/invalid
path, for which the C function returns `(uint64_t)-1`; `some v` models a
successful query computing `f_bavail * f_frsize` in `uint64_t`. -/

/-- `get_available_space` result for a given OS query outcome. -/
def get_available_space (q : Option Nat) : Nat :=
  match q with
  | none => 2 ^ 64 - 1
  | some v => v % 2 ^ 64

/-- `check_disk_space`: the `(uint64_t)-1` error value is never enough;
otherwise require `required + required/10` in `uint64_t` arithmetic,
saturated to `UINT64_MAX` when the addition wrapped. -/
def check_disk_space (q : Option Nat) (required_bytes : Nat) : Bool :=
  let available := get_available_space q
  if available = 2 ^ 64 - 1 then false
  else
    let required := required_bytes % 2 ^ 64
    let buffer := required / 10
    let rwb := (required + buffer) % 2 ^ 64
    let rwb := if rwb < required then 2 ^ 64 - 1 else rwb
    decide (available ≥ rwb)

/-- Specification-side formulation of the space requirement:
`size + size/10`, saturating at `UINT64_MAX`. -/
def required_with_margin (size : Nat) : Nat :=
  min (size % 2 ^ 64 + size % 2 ^ 64 / 10) (2 ^ 64 - 1)

/-! ## Directory walker (csrc/directory.c)

The filesystem under a root directory is an inductive tree.  A directory
holds the readdir results after the `.`/`..` skip, as a finite sequence of
(name, subtree) pairs in arbitrary filesystem order.  Names and relative
paths are byte lists (`strcmp` compares bytes), where `46` is the byte of
`'.'` and `47` the byte of `'/'`. -/

mutual
inductive FsTree : Type where
  | file (size : Nat) : FsTree
  | dir (children : FsForest) : FsTree
deriving DecidableEq
inductive FsForest : Type where
  | nil : FsForest
  | cons (name : List Nat) (child : FsTree) (rest : FsForest) : FsForest
deriving DecidableEq
end

/-- Names of a forest's immediate children. -/
def namesOf : FsForest → List (List Nat)
  | .nil => []
  | .cons n _ rest => n :: namesOf rest

/-- A readdir child name: nonempty, without `/` (47), and neither `.` nor
`..` (those are skipped by `walk_recursive`). -/
def goodName (n : List Nat) : Bool :=
  !n.isEmpty && !decide (47 ∈ n) && !decide (n = [46]) && !decide (n = [46, 46])

mutual
/-- Well-formedness of a filesystem tree: every directory's child list
has good, pairwise-distinct names. -/
def wfTree : FsTree → Bool
  | .file _ => true
  | .dir cs => wfForest cs
def wfForest : FsForest → Bool
  | .nil => true
  | .cons n t rest =>
      goodName n && wfTree t && wfForest rest && !decide (n ∈ namesOf rest)
end

/-- `get_relative_path` composition: a child of the root (relative path
`"."`) has relative path `name`; deeper down it is `parent ++ "/" ++ name`. -/
def pjoin (p n : List Nat) : List Nat :=
  if p = [46] then n else p ++ 47 :: n

/-- `FileEntry` of directory.h restricted to the fields the protocol reads
(`relative_path`, `is_dir`, `size`); the absolute `path` only feeds
`fopen` and is not modelled. -/
structure FileEntry where
  relative_path : List Nat
  is_dir : Bool
  size : Nat
deriving DecidableEq

mutual
/-- `walk_recursive` contribution of one child: the entry itself (a
directory entry precedes its contents) followed, for directories, by the
recursive walk. -/
def walkTree (p n : List Nat) : FsTree → List FileEntry
  | .file sz => [⟨pjoin p n, false, sz⟩]
  | .dir cs => ⟨pjoin p n, true, 0⟩ :: walkForest (pjoin p n) cs
/-- `walk_recursive` over the readdir sequence of one directory. -/
def walkForest (p : List Nat) : FsForest → List FileEntry
  | .nil => []
  | .cons n t rest => walkTree p n t ++ walkForest p rest
end

/-- `r` lies in the subtree rooted at relative path `base`: it is `base`
itself or extends it with a `/` and more bytes. -/
def relExt (base r : List Nat) : Prop :=
  r = base ∨ ∃ s, r = base ++ 47 :: s

/-- Example tree of spec §8: root with subdirectory `sub` containing
`b.txt` (8 bytes) and file `a.txt` (8 bytes). -/
def csEx : FsForest :=
  .cons [115, 117, 98] (.dir (.cons [98, 46, 116, 120, 116] (.file 8) .nil))
    (.cons [97, 46, 116, 120, 116] (.file 8) .nil)

/-- A root with a single subdirectory named `-` (byte 45, which `strcmp`
orders before `.` = byte 46). -/
def csBad : FsForest := .cons [45] (.dir .nil) .nil

/-- Three-way byte comparison, the behaviour of `strcmp` on NUL-free byte
strings. -/
def byteCmp : List Nat → List Nat → Ordering
  | [], [] => .eq
  | [], _ :: _ => .lt
  | _ :: _, [] => .gt
  | a :: as, b :: bs =>
      if a < b then .lt else if b < a then .gt else byteCmp as bs

/-- `compare_entries`: directories before files, then `strcmp` on the
relative path. -/
def compare_entries (x y : FileEntry) : Ordering :=
  if x.is_dir ≠ y.is_dir then (if x.is_dir then .lt else .gt)
  else byteCmp x.relative_path y.relative_path

/-- The non-strict order induced by `compare_entries`, i.e. "not greater";
`qsort` against `compare_entries` yields a sequence sorted by it. -/
def entryLE (x y : FileEntry) : Prop := compare_entries x y ≠ Ordering.gt

instance : DecidableRel entryLE :=
  fun x y => inferInstanceAs (Decidable (compare_entries x y ≠ Ordering.gt))

/-- The root entry `walk_directory` pushes before walking:
relative path `"."`, directory, size 0. -/
def rootEntry : FileEntry := ⟨[46], true, 0⟩

/-- `walk_directory` on the forest of children of the root: the root entry
first, then the recursive walk, then one global sort by `compare_entries`.
`qsort`'s output is modelled by insertion sort: on the walk's entries the
comparator is a total order with no ties (relative paths are distinct), so
every comparison sort returns the same sequence. -/
def walk_directory (cs : FsForest) : List FileEntry :=
  List.insertionSort entryLE (rootEntry :: walkForest [46] cs)

/-! ## Sender payload streaming (csrc/send.c)

`send_file_content` reads the source file in chunks of up to 8192 bytes
and writes each chunk to the socket until `size` bytes have been sent; a
premature end of file is an error.  The source file's content is the byte
list `content`; `read(fd, buffer, 8192)` yields its next `min 8192 r`
bytes where `r` bytes remain. -/

/-- The loop of `send_file_content`: returns the bytes placed on the wire,
or `none` on "Unexpected end of file". -/
def send_loop (content : List Nat) (size total : Nat) : Option (List Nat) :=
  if total < size then
    match h : content with
    | [] => none
    | _ :: _ =>
        let chunk := content.take 8192
        match send_loop (content.drop 8192) size (total + chunk.length) with
        | none => none
        | some w => some (chunk ++ w)
  else some []
termination_by content.length
decreasing_by simp [h, List.length_drop]; omega

/-- `send_file_content`: size 0 sends nothing (directory case), otherwise
run the chunk loop. -/
def send_file_content (content : List Nat) (size : Nat) : Option (List Nat) :=
  if size = 0 then some [] else send_loop content size 0

/-! ## Receiver session (csrc/recv.c)

The receiver's handlers are embedded as pure functions of the incoming
message fields and of the outcomes of the external calls they make.  Sent
messages are recorded at the message level (their byte encodings are the
codec above). -/

/-- A preflight-failure reason: either one of the fixed strings of recv.c,
or the "Insufficient disk space. Need: ..., Available: ..." message, which
carries the needed size and the available space (rendered through
`format_bytes`; the rendering itself is not modelled). -/
inductive Reason : Type where
  | text (s : String) : Reason
  | insufficientSpace (needed available : Nat) : Reason
deriving DecidableEq

/-- A message sent by the receiver. -/
inductive Msg : Type where
  | preflightOk (available_space : Nat) : Msg
  | preflightFail (reason : Reason) : Msg
  | transferResult (ok : Bool) (received_bytes : Nat) : Msg
deriving DecidableEq

/-- Outcomes of the external calls one entry's handling performs.
`finalExists`/`finalIsDir` are `stat` on the resolved final path,
`dstExists`/`dstIsDir` are `stat` on the destination root inside
`determine_final_path`, `promptYes` the operator's `prompt_overwrite`
answer, `availQuery` the `statvfs` outcome, `transferStartSize` the
`file_size` field of the sender's TransferStart, `failChunk` the streaming
chunk index (if any) at which `read_exact_bytes`/`fwrite` fails. -/
structure EntryEnv where
  dstExists : Bool
  dstIsDir : Bool
  finalExists : Bool
  finalIsDir : Bool
  promptYes : Bool
  availQuery : Option Nat
  createParentsOk : Bool
  unlinkOk : Bool
  mkdirOk : Bool
  gotTransferStart : Bool
  transferStartSize : Nat
  openTempOk : Bool
  failChunk : Option Nat
  renameOk : Bool
deriving DecidableEq

/-- Observable outcome of `handle_file_entry`: the messages written to the
stream, the return value (`ok` = returned 0), whether the temporary file
`<final>.ncp_temp` still exists afterwards, and whether the final path was
replaced by the received data. -/
structure FileOutcome where
  sent : List Msg
  ok : Bool
  tempLeft : Bool
  finalReplaced : Bool
deriving DecidableEq

/-- `OVERWRITE_ASK` of recv.h. -/
def OVERWRITE_ASK : Nat := 0
/-- `OVERWRITE_YES` of recv.h. -/
def OVERWRITE_YES : Nat := 1
/-- `OVERWRITE_NO` of recv.h. -/
def OVERWRITE_NO : Nat := 2

/-- The receive loop of `handle_file_entry`: consume `remaining` payload
bytes in chunks of at most 8192, failing at chunk index `failChunk`;
returns the total byte count written to the temporary file. -/
def recv_loop (remaining idx : Nat) (failChunk : Option Nat) : Option Nat :=
  if remaining = 0 then some 0
  else if failChunk = some idx then none
  else
    let toRead := min remaining 8192
    match recv_loop (remaining - toRead) (idx + 1) failChunk with
    | none => none
    | some rest => some (toRead + rest)
termination_by remaining
decreasing_by omega

/-- The temporary-file name `sprintf(temp_path, "%s.ncp_temp", final_path)`. -/
def temp_path (final : String) : String := final ++ ".ncp_temp"

/-- `handle_file_entry` after path resolution: overwrite gate, parent
directory creation, disk-space admission, PreflightOk, TransferStart,
streaming into the temporary file, rename, TransferResult.  Every failure
after the temporary file was opened unlinks it. -/
def handle_file_entry (env : EntryEnv) (size mode : Nat) : FileOutcome :=
  if env.finalExists && (mode == OVERWRITE_ASK) && !env.promptYes then
    ⟨[.preflightFail (.text "User declined overwrite")], false, false, false⟩
  else if env.finalExists && (mode == OVERWRITE_NO) then
    ⟨[.preflightFail (.text "File exists, skipping")], false, false, false⟩
  else if !env.createParentsOk then
    ⟨[], false, false, false⟩
  else
    let available := get_available_space env.availQuery
    if !check_disk_space env.availQuery size then
      ⟨[.preflightFail (.insufficientSpace size available)], false, false, false⟩
    else if !env.gotTransferStart then
      ⟨[.preflightOk available], false, false, false⟩
    else if !env.openTempOk then
      ⟨[.preflightOk available], false, false, false⟩
    else
      match recv_loop env.transferStartSize 0 env.failChunk with
      | none => ⟨[.preflightOk available], false, false, false⟩
      | some total =>
          if env.renameOk then
            ⟨[.preflightOk available, .transferResult true total], true, false, true⟩
          else
            ⟨[.preflightOk available], false, false, false⟩

/-- `handle_directory_entry`: an existing directory is reused; an existing
non-directory passes the overwrite switch (only `OVERWRITE_ASK` can
reject there) and is then unlinked and replaced; a missing path is created
with its parents.  Success sends `PreflightOk{0}` then
`TransferResult{ok=true, 0}`. -/
def handle_directory_entry (env : EntryEnv) (mode : Nat) : List Msg × Bool :=
  if env.finalExists then
    if !env.finalIsDir then
      if (mode == OVERWRITE_ASK) && !env.promptYes then
        ([.preflightFail (.text "User declined directory overwrite")], false)
      else if !env.unlinkOk then ([], false)
      else if !env.mkdirOk then ([], false)
      else ([.preflightOk 0, .transferResult true 0], true)
    else ([.preflightOk 0, .transferResult true 0], true)
  else
    if !env.createParentsOk then ([], false)
    else if !env.mkdirOk then ([], false)
    else ([.preflightOk 0, .transferResult true 0], true)

/-- `handle_connection`: one iteration per incoming Meta message
(`entries` pairs each decoded Meta with the environment outcomes of its
handling; the list ending models the clean end-of-stream before a Meta).
`determine_final_path` fails without sending anything when a directory
entry meets a destination that exists as a file.  A handler returning -1
closes the stream and ends the session with an error; only after every
entry succeeded does the session end successfully. -/
def handle_connection : List (FileMeta × EntryEnv) → List Msg × Bool
  | [] => ([], true)
  | (m, env) :: rest =>
      if env.dstExists && !env.dstIsDir && m.is_dir then ([], false)
      else
        let r :=
          if m.is_dir then handle_directory_entry env m.overwrite_mode
          else
            let o := handle_file_entry env m.size m.overwrite_mode
            (o.sent, o.ok)
        if r.2 then
          let rec_ := handle_connection rest
          (r.1 ++ rec_.1, rec_.2)
        else (r.1, false)

/-- A baseline environment for concrete runs: fresh destination, every
external call succeeding, empty file, operator answering no. -/
def env0 : EntryEnv where
  dstExists := false
  dstIsDir := false
  finalExists := false
  finalIsDir := false
  promptYes := false
  availQuery := some 0
  createParentsOk := true
  unlinkOk := true
  mkdirOk := true
  gotTransferStart := true
  transferStartSize := 0
  openTempOk := true
  failChunk := none
  renameOk := true

/-! ## Codec lemmas -/

theorem read_u32_be32 (n : Nat) (r : List Nat) :
    read_u32 (be32 n ++ r) = some (n % 2 ^ 32, r) := by
  simp only [be32, List.cons_append, List.nil_append, read_u32,
    Option.some.injEq, Prod.mk.injEq]
  exact ⟨by omega, trivial⟩

theorem read_u64_be64 (n : Nat) (r : List Nat) :
    read_u64 (be64 n ++ r) = some (n % 2 ^ 64, r) := by
  simp only [be64, List.cons_append, List.nil_append, read_u64,
    Option.some.injEq, Prod.mk.injEq]
  exact ⟨by omega, trivial⟩

theorem read_write_string (s : Option (List Nat)) (r : List Nat) (h : strOK s = true) :
    read_string (write_string s ++ r) = some (s, r) := by
  match s with
  | none =>
      simp only [write_string, read_string, read_u32_be32]
      norm_num
  | some str =>
      simp only [strOK, Bool.and_eq_true, List.isEmpty_eq_false, decide_eq_true_eq] at h
      obtain ⟨hne, hlt⟩ := h
      have hmod : str.length % 2 ^ 32 = str.length := Nat.mod_eq_of_lt hlt
      simp only [write_string, hmod, List.take_length, List.append_assoc, read_string,
        read_u32_be32, hmod]
      have hlen0 : str.length ≠ 0 := by
        simpa [List.length_eq_zero] using hne
      rw [if_neg hlen0]
      rw [if_neg (by simp)]
      simp [List.take_left, List.drop_left]

theorem decode_write_meta (m : FileMeta) (r : List Nat)
    (hs : m.size < 2 ^ 64) (ho : m.overwrite_mode < 256) (hn : strOK m.name = true) :
    decode_meta (write_meta m ++ r) = some (m, r) := by
  simp only [write_meta, decode_meta, read_message_type, read_message_length,
    List.cons_append, List.append_assoc, List.singleton_append, read_u8,
    Option.bind_eq_bind, Option.some_bind, if_pos rfl, read_u32_be32, read_meta,
    read_u64_be64, Nat.mod_eq_of_lt hs, Nat.mod_eq_of_lt ho,
    read_write_string _ _ hn, Option.pure_def, List.nil_append, if_true]
  simp only [read_u8, Option.some_bind, read_write_string _ _ hn, Option.some.injEq,
    Prod.mk.injEq]
  refine ⟨?_, trivial⟩
  cases m with
  | mk nm sz d ow => cases d <;> simp_all

theorem decode_write_preflight_ok (m : PreflightOk) (r : List Nat)
    (h : m.available_space < 2 ^ 64) :
    decode_preflight_ok (write_preflight_ok m ++ r) = some (m, r) := by
  simp only [write_preflight_ok, decode_preflight_ok, read_message_type,
    read_message_length, List.cons_append, List.append_assoc, read_u8,
    Option.bind_eq_bind, Option.some_bind, if_pos rfl, read_u32_be32,
    read_preflight_ok, read_u64_be64, Nat.mod_eq_of_lt h, Option.pure_def,
    Option.some.injEq, Prod.mk.injEq]
  rfl

theorem decode_write_preflight_fail (m : PreflightFail) (r : List Nat)
    (h : strOK m.reason = true) :
    decode_preflight_fail (write_preflight_fail m ++ r) = some (m, r) := by
  simp only [write_preflight_fail, decode_preflight_fail, read_message_type,
    read_message_length, List.cons_append, List.append_assoc, read_u8,
    Option.bind_eq_bind, Option.some_bind, if_pos rfl, read_u32_be32,
    read_preflight_fail, read_write_string _ _ h, Option.pure_def,
    Option.some.injEq, Prod.mk.injEq]
  rfl

theorem decode_write_transfer_start (m : TransferStart) (r : List Nat)
    (h : m.file_size < 2 ^ 64) :
    decode_transfer_start (write_transfer_start m ++ r) = some (m, r) := by
  simp only [write_transfer_start, decode_transfer_start, read_message_type,
    read_message_length, List.cons_append, List.append_assoc, read_u8,
    Option.bind_eq_bind, Option.some_bind, if_pos rfl, read_u32_be32,
    read_transfer_start, read_u64_be64, Nat.mod_eq_of_lt h, Option.pure_def,
    Option.some.injEq, Prod.mk.injEq]
  rfl

theorem decode_write_transfer_result (m : TransferResult) (r : List Nat)
    (h : m.received_bytes < 2 ^ 64) :
    decode_transfer_result (write_transfer_result m ++ r) = some (m, r) := by
  simp only [write_transfer_result, decode_transfer_result, read_message_type,
    read_message_length, List.cons_append, List.append_assoc,
    List.singleton_append, read_u8, Option.bind_eq_bind, Option.some_bind,
    if_pos rfl, read_u32_be32, read_transfer_result, read_u64_be64,
    Nat.mod_eq_of_lt h, Option.pure_def, List.nil_append, if_true]
  simp only [read_u8, Option.some_bind, Option.some.injEq, Prod.mk.injEq]
  refine ⟨?_, trivial⟩
  cases m with
  | mk okv b => cases okv <;> simp_all

/-! ## Claim C1 -/

/-- C1 (amended): decoding the bytes produced by each of the five write
functions yields the message encoded, for all in-range field values whose
name/reason string is NULL or nonempty.  (An empty name/reason encodes
identically to NULL and decodes to NULL, so the round-trip wording of the
claim fails exactly there; see the counterexample.) -/
theorem C1_roundtrip_amended :
    (∀ (m : FileMeta) (r : List Nat),
      m.size < 2 ^ 64 → m.overwrite_mode < 256 → strOK m.name = true →
      decode_meta (write_meta m ++ r) = some (m, r)) ∧
    (∀ (m : PreflightOk) (r : List Nat), m.available_space < 2 ^ 64 →
      decode_preflight_ok (write_preflight_ok m ++ r) = some (m, r)) ∧
    (∀ (m : PreflightFail) (r : List Nat), strOK m.reason = true →
      decode_preflight_fail (write_preflight_fail m ++ r) = some (m, r)) ∧
    (∀ (m : TransferStart) (r : List Nat), m.file_size < 2 ^ 64 →
      decode_transfer_start (write_transfer_start m ++ r) = some (m, r)) ∧
    (∀ (m : TransferResult) (r : List Nat), m.received_bytes < 2 ^ 64 →
      decode_transfer_result (write_transfer_result m ++ r) = some (m, r)) :=
  ⟨fun m r hs ho hn => decode_write_meta m r hs ho hn,
   fun m r h => decode_write_preflight_ok m r h,
   fun m r h => decode_write_preflight_fail m r h,
   fun m r h => decode_write_transfer_start m r h,
   fun m r h => decode_write_transfer_result m r h⟩

/-- C1 witness: concrete round-trips, including size `u64::MAX`, size 0,
a NULL (zero-length) name and a NULL reason. -/
theorem C1_roundtrip_witness :
    decode_meta (write_meta ⟨some [110, 99, 112], 2 ^ 64 - 1, false, 2⟩ ++ [])
      = some (⟨some [110, 99, 112], 2 ^ 64 - 1, false, 2⟩, []) ∧
    decode_meta (write_meta ⟨none, 0, true, 0⟩ ++ [])
      = some (⟨none, 0, true, 0⟩, []) ∧
    decode_preflight_ok (write_preflight_ok ⟨2 ^ 64 - 1⟩ ++ [])
      = some (⟨2 ^ 64 - 1⟩, []) ∧
    decode_preflight_fail (write_preflight_fail ⟨none⟩ ++ []) = some (⟨none⟩, []) ∧
    decode_transfer_start (write_transfer_start ⟨0⟩ ++ []) = some (⟨0⟩, []) ∧
    decode_transfer_result (write_transfer_result ⟨true, 9⟩ ++ [])
      = some (⟨true, 9⟩, []) :=
  ⟨C1_roundtrip_amended.1 _ [] (by decide) (by decide) (by decide),
   C1_roundtrip_amended.1 _ [] (by decide) (by decide) (by decide),
   C1_roundtrip_amended.2.1 _ [] (by decide),
   C1_roundtrip_amended.2.2.1 _ [] (by decide),
   C1_roundtrip_amended.2.2.2.1 _ [] (by decide),
   C1_roundtrip_amended.2.2.2.2 _ [] (by decide)⟩

/-- C1 counterexample: a Meta whose name is the empty string `""` (a valid
`char*` field value of zero length) decodes with a NULL name, so
`decode(encode(m)) ≠ m` there. -/
theorem C1_empty_name_counterexample :
    decode_meta (write_meta ⟨some [], 0, false, 0⟩ ++ [])
      = some (⟨none, 0, false, 0⟩, []) ∧
    (⟨none, 0, false, 0⟩ : FileMeta) ≠ ⟨some [], 0, false, 0⟩ := by
  decide

/-! ## Claim C2 -/

/-- C2: for each of the five write functions the 4-byte big-endian length
field holds exactly the byte count of the payload written after it
(Meta `8+1+1+4+name_len`, PreflightOk 8, PreflightFail `4+reason_len`,
TransferStart 8, TransferResult 9), whenever that count fits the u32
field. -/
theorem C2_framing :
    (∀ m : FileMeta, name_len m.name + 14 < 2 ^ 32 →
      frame_len_field (write_meta m) = some (14 + name_len m.name) ∧
      (frame_payload (write_meta m)).length = 14 + name_len m.name) ∧
    (∀ m : PreflightOk,
      frame_len_field (write_preflight_ok m) = some 8 ∧
      (frame_payload (write_preflight_ok m)).length = 8) ∧
    (∀ m : PreflightFail, name_len m.reason + 4 < 2 ^ 32 →
      frame_len_field (write_preflight_fail m) = some (4 + name_len m.reason) ∧
      (frame_payload (write_preflight_fail m)).length = 4 + name_len m.reason) ∧
    (∀ m : TransferStart,
      frame_len_field (write_transfer_start m) = some 8 ∧
      (frame_payload (write_transfer_start m)).length = 8) ∧
    (∀ m : TransferResult,
      frame_len_field (write_transfer_result m) = some 9 ∧
      (frame_payload (write_transfer_result m)).length = 9) := by
  refine ⟨?_, ?_, ?_, ?_, ?_⟩
  · intro m h
    cases hn : m.name with
    | none =>
        simp only [name_len, hn] at h ⊢
        simp [frame_len_field, frame_payload, write_meta, hn, write_string, be32,
          be64, read_message_length, read_u32, List.length_take]
    | some s =>
        simp only [name_len, hn] at h ⊢
        simp [frame_len_field, frame_payload, write_meta, hn, write_string, be32,
          be64, read_message_length, read_u32, List.length_take]
        omega
  · intro m
    simp [frame_len_field, frame_payload, write_preflight_ok, be32, be64,
      read_message_length, read_u32]
  · intro m h
    cases hn : m.reason with
    | none =>
        simp only [name_len, hn] at h ⊢
        simp [frame_len_field, frame_payload, write_preflight_fail, hn,
          write_string, be32, read_message_length, read_u32, List.length_take]
    | some s =>
        simp only [name_len, hn] at h ⊢
        simp [frame_len_field, frame_payload, write_preflight_fail, hn,
          write_string, be32, read_message_length, read_u32, List.length_take]
        omega
  · intro m
    simp [frame_len_field, frame_payload, write_transfer_start, be32, be64,
      read_message_length, read_u32]
  · intro m
    simp [frame_len_field, frame_payload, write_transfer_result, be32, be64,
      read_message_length, read_u32]

/-- C2 witness: the framing equalities at concrete messages of each kind. -/
theorem C2_framing_witness :
    frame_len_field (write_meta ⟨some [120], 7, false, 1⟩) = some 15 ∧
    (frame_payload (write_meta ⟨some [120], 7, false, 1⟩)).length = 15 ∧
    frame_len_field (write_preflight_fail ⟨none⟩) = some 4 ∧
    (frame_payload (write_preflight_fail ⟨none⟩)).length = 4 ∧
    frame_len_field (write_preflight_ok ⟨3⟩) = some 8 ∧
    frame_len_field (write_transfer_start ⟨3⟩) = some 8 ∧
    frame_len_field (write_transfer_result ⟨true, 3⟩) = some 9 :=
  ⟨(C2_framing.1 ⟨some [120], 7, false, 1⟩ (by decide)).1,
   (C2_framing.1 ⟨some [120], 7, false, 1⟩ (by decide)).2,
   (C2_framing.2.2.1 ⟨none⟩ (by decide)).1,
   (C2_framing.2.2.1 ⟨none⟩ (by decide)).2,
   (C2_framing.2.1 ⟨3⟩).1,
   (C2_framing.2.2.2.1 ⟨3⟩).1,
   (C2_framing.2.2.2.2 ⟨true, 3⟩).1⟩

/-! ## Claim C9 -/

/-- C9: `write_string` emits the same bytes (a zero u32, nothing else) for
NULL and for the empty string; `read_string` yields NULL for any
zero-length string; hence a Meta with empty name or a PreflightFail with
empty reason decodes with a NULL name/reason, and encoding is not
injective on those fields. -/
theorem C9_empty_absent_conflation :
    write_string (some []) = write_string none ∧
    (∀ r : List Nat, read_string (be32 0 ++ r) = some (none, r)) ∧
    write_meta ⟨some [], 5, false, 1⟩ = write_meta ⟨none, 5, false, 1⟩ ∧
    (⟨some [], 5, false, 1⟩ : FileMeta) ≠ ⟨none, 5, false, 1⟩ ∧
    decode_meta (write_meta ⟨some [], 5, false, 1⟩) = some (⟨none, 5, false, 1⟩, []) ∧
    write_preflight_fail ⟨some []⟩ = write_preflight_fail ⟨none⟩ ∧
    decode_preflight_fail (write_preflight_fail ⟨some []⟩) = some (⟨none⟩, []) :=
  ⟨by decide, fun r => by simp [read_string, read_u32_be32], by decide, by decide,
   by decide, by decide, by decide⟩

/-! ## Streaming lemmas -/

theorem send_loop_spec (n : Nat) :
    ∀ (content : List Nat) (size total : Nat), content.length = n →
      total + content.length = size → send_loop content size total = some content := by
  induction n using Nat.strong_induction_on with
  | _ n ih =>
    intro content size total hn hsum
    rw [send_loop.eq_def]
    by_cases hlt : total < size
    · rw [if_pos hlt]
      cases content with
      | nil =>
          exfalso
          simp only [List.length_nil] at hsum
          omega
      | cons c cs =>
          have hlen : (c :: cs).length = n := hn
          have hdl : ((c :: cs).drop 8192).length = (c :: cs).length - 8192 :=
            List.length_drop 8192 (c :: cs)
          have htl : ((c :: cs).take 8192).length = min 8192 (c :: cs).length :=
            List.length_take 8192 (c :: cs)
          have hrec : send_loop ((c :: cs).drop 8192) size
              (total + ((c :: cs).take 8192).length) = some ((c :: cs).drop 8192) := by
            apply ih ((c :: cs).drop 8192).length ?_ _ _ _ rfl ?_
            · rw [hdl]
              simp only [List.length_cons] at hlen ⊢
              omega
            · rw [hdl, htl]
              simp only [List.length_cons] at hsum ⊢
              omega
          simp only [hrec]
          rw [List.take_append_drop]
    · rw [if_neg hlt]
      have hc : content = [] := by
        have : content.length = 0 := by omega
        exact List.length_eq_zero.mp this
      subst hc
      rfl

theorem recv_loop_none (n : Nat) : ∀ i, recv_loop n i none = some n := by
  induction n using Nat.strong_induction_on with
  | _ n ih =>
    intro i
    rw [recv_loop.eq_def]
    by_cases h0 : n = 0
    · subst h0; simp
    · rw [if_neg h0, if_neg (by simp : ¬ (none : Option Nat) = some i)]
      have hrec := ih (n - min n 8192) (by omega) (i + 1)
      simp only [hrec]
      congr 1
      omega

theorem recv_loop_total (n : Nat) :
    ∀ (i t : Nat) (f : Option Nat), recv_loop n i f = some t → t = n := by
  induction n using Nat.strong_induction_on with
  | _ n ih =>
    intro i t f h
    rw [recv_loop.eq_def] at h
    by_cases h0 : n = 0
    · subst h0
      simp at h
      omega
    · rw [if_neg h0] at h
      by_cases hf : f = some i
      · rw [if_pos hf] at h
        exact absurd h (by simp)
      · rw [if_neg hf] at h
        cases hr : recv_loop (n - min n 8192) (i + 1) f with
        | none => simp [hr] at h
        | some rest =>
            simp only [hr, Option.some.injEq] at h
            have := ih (n - min n 8192) (by omega) (i + 1) rest f hr
            omega

/-! ## Claim C4 -/

/-- C4: the byte count the sender places on the wire after TransferStart
equals `file_size` exactly: when the source file holds exactly `size`
bytes, `send_file_content` puts precisely those `size` bytes on the wire,
unpadded and undelimited; and the receiver's loop consumes exactly
`file_size` payload bytes (and can only complete with that count). -/
theorem C4_exact_payload :
    (∀ (content : List Nat) (size : Nat), content.length = size →
      send_file_content content size = some content) ∧
    (∀ size : Nat, recv_loop size 0 none = some size) ∧
    (∀ (size i t : Nat) (f : Option Nat), recv_loop size i f = some t → t = size) := by
  refine ⟨?_, ?_, ?_⟩
  · intro content size h
    unfold send_file_content
    by_cases h0 : size = 0
    · subst h0
      have hc : content = [] := List.length_eq_zero.mp h
      subst hc
      simp
    · rw [if_neg h0]
      exact send_loop_spec content.length content size 0 rfl (by omega)
  · exact fun size => recv_loop_none size 0
  · exact fun size i t f h => recv_loop_total size i t f h

/-- C4 witness: a 3-byte file goes on the wire as exactly those 3 bytes,
and a 20000-byte reception consumes exactly 20000 bytes. -/
theorem C4_exact_payload_witness :
    ([7, 8, 9] : List Nat).length = 3 ∧
    send_file_content [7, 8, 9] 3 = some [7, 8, 9] ∧
    recv_loop 20000 0 none = some 20000 :=
  ⟨rfl, C4_exact_payload.1 [7, 8, 9] 3 rfl, C4_exact_payload.2.1 20000⟩

/-! ## Disk-space lemmas -/

theorem check_disk_space_iff (q : Option Nat) (size : Nat) :
    check_disk_space q size = true ↔
      (get_available_space q ≠ 2 ^ 64 - 1 ∧
        required_with_margin size ≤ get_available_space q) := by
  cases q with
  | none => simp [check_disk_space, get_available_space]
  | some v =>
      have hreq : (if (size % 2 ^ 64 + size % 2 ^ 64 / 10) % 2 ^ 64 < size % 2 ^ 64
            then (2 ^ 64 - 1 : Nat)
            else (size % 2 ^ 64 + size % 2 ^ 64 / 10) % 2 ^ 64)
          = required_with_margin size := by
        unfold required_with_margin
        split_ifs with h
        · omega
        · omega
      simp only [check_disk_space, get_available_space]
      rw [hreq]
      split_ifs with h1
      · simp only [h1, Bool.false_eq_true, false_iff, not_and, not_le]
        intro hcon
        exact absurd rfl hcon
      · simp only [decide_eq_true_eq, ge_iff_le, ne_eq, h1, not_false_iff, true_and]

/-! ## Claim C7 -/

/-- C7 (amended): the required byte count is `size + size/10` in u64
arithmetic saturating at `UINT64_MAX`; a file entry is rejected with the
need/available message exactly when the available space is below that
requirement or get_available_space returned the `UINT64_MAX` error value;
on acceptance the PreflightOk carries the raw available figure; a
directory entry never consults the space query. -/
theorem C7_space_margin_amended :
    (∀ (q : Option Nat) (size : Nat),
      check_disk_space q size = true ↔
        (get_available_space q ≠ 2 ^ 64 - 1 ∧
          required_with_margin size ≤ get_available_space q)) ∧
    (∀ (env : EntryEnv) (size mode v : Nat), v < 2 ^ 64 - 1 → size < 2 ^ 64 →
      (v < required_with_margin size →
        handle_file_entry
            { env with finalExists := false, createParentsOk := true,
                       availQuery := some v } size mode
          = ⟨[.preflightFail (.insufficientSpace size v)], false, false, false⟩) ∧
      (required_with_margin size ≤ v →
        (handle_file_entry
            { env with finalExists := false, createParentsOk := true,
                       availQuery := some v } size mode).sent.head?
          = some (.preflightOk v))) ∧
    (∀ (env : EntryEnv) (mode : Nat) (q : Option Nat),
      handle_directory_entry { env with availQuery := q } mode
        = handle_directory_entry env mode) := by
  refine ⟨check_disk_space_iff, ?_, ?_⟩
  · intro env size mode v hv hsz
    have hvmod : v % 2 ^ 64 = v := Nat.mod_eq_of_lt (by omega)
    have hg : get_available_space (some v) = v := by
      simp only [get_available_space]
      exact hvmod
    constructor
    · intro hlt
      have hc : check_disk_space (some v) size = false := by
        rw [Bool.eq_false_iff, ne_eq, check_disk_space_iff, hg]
        rintro ⟨-, hreq⟩
        omega
      simp [handle_file_entry, hc, hg]
    · intro hge
      have hc : check_disk_space (some v) size = true := by
        rw [check_disk_space_iff, hg]
        exact ⟨by omega, hge⟩
      rcases hrec : recv_loop env.transferStartSize 0 env.failChunk with _ | t
      · simp [handle_file_entry, hc, hg, hrec]
      · simp [handle_file_entry, hc, hg, hrec]
        try (split_ifs <;> simp)
  · intro env mode q
    simp [handle_directory_entry]

/-- C7 witness: with 100 bytes available, a 91-byte file (requirement
100) is admitted and PreflightOk carries the raw 100; a 92-byte file
(requirement 101) is rejected with the need/available figures. -/
theorem C7_space_margin_witness :
    handle_file_entry
        { env0 with finalExists := false, createParentsOk := true,
                    availQuery := some 100, gotTransferStart := false } 92 1
      = ⟨[.preflightFail (.insufficientSpace 92 100)], false, false, false⟩ ∧
    (handle_file_entry
        { env0 with finalExists := false, createParentsOk := true,
                    availQuery := some 100, gotTransferStart := false } 91 1).sent.head?
      = some (.preflightOk 100) ∧
    required_with_margin 92 = 101 ∧ required_with_margin 91 = 100 :=
  ⟨(C7_space_margin_amended.2.1 { env0 with gotTransferStart := false } 92 1 100
      (by decide) (by decide)).1 (by decide),
   (C7_space_margin_amended.2.1 { env0 with gotTransferStart := false } 91 1 100
      (by decide) (by decide)).2 (by decide),
   by decide, by decide⟩

/-- C7 counterexample: an available-space figure of exactly `UINT64_MAX`
meets any requirement (here 0), yet the file is rejected, because
`check_disk_space` treats that value as the error sentinel — so "rejected
exactly when available space is smaller than the requirement" fails. -/
theorem C7_sentinel_counterexample :
    required_with_margin 0 ≤ get_available_space (some (2 ^ 64 - 1)) ∧
    check_disk_space (some (2 ^ 64 - 1)) 0 = false ∧
    handle_file_entry
        { env0 with finalExists := false, createParentsOk := true,
                    availQuery := some (2 ^ 64 - 1) } 0 1
      = ⟨[.preflightFail (.insufficientSpace 0 (2 ^ 64 - 1))], false, false, false⟩ := by
  decide

/-! ## Claim C10 -/

/-- C10: a failed free-space query is reported as `(uint64_t)-1`, and
`check_disk_space` returns 0 whenever it sees that value, so both a query
error and a genuine reading of exactly `UINT64_MAX` reject the file entry
as insufficient. -/
theorem C10_failed_query_rejects :
    get_available_space none = 2 ^ 64 - 1 ∧
    (∀ (q : Option Nat) (size : Nat), (q = none ∨ q = some (2 ^ 64 - 1)) →
      check_disk_space q size = false) ∧
    (∀ (env : EntryEnv) (size mode : Nat) (q : Option Nat),
      (q = none ∨ q = some (2 ^ 64 - 1)) →
      handle_file_entry
          { env with finalExists := false, createParentsOk := true, availQuery := q }
          size mode
        = ⟨[.preflightFail (.insufficientSpace size (2 ^ 64 - 1))], false, false, false⟩) := by
  refine ⟨rfl, ?_, ?_⟩
  · rintro q size (rfl | rfl)
    · simp [check_disk_space, get_available_space]
    · have hm : (2 ^ 64 - 1 : Nat) % 2 ^ 64 = 2 ^ 64 - 1 := by omega
      simp [check_disk_space, get_available_space, hm]
  · rintro env size mode q (rfl | rfl)
    · simp [handle_file_entry, check_disk_space, get_available_space]
    · have hm : (2 ^ 64 - 1 : Nat) % 2 ^ 64 = 2 ^ 64 - 1 := by omega
      simp [handle_file_entry, check_disk_space, get_available_space, hm]

/-- C10 witness: a failed query and a `UINT64_MAX` reading both reject a
5-byte file under mode Yes. -/
theorem C10_failed_query_witness :
    handle_file_entry
        { env0 with finalExists := false, createParentsOk := true, availQuery := none } 5 1
      = ⟨[.preflightFail (.insufficientSpace 5 (2 ^ 64 - 1))], false, false, false⟩ ∧
    check_disk_space (some (2 ^ 64 - 1)) 5 = false :=
  ⟨C10_failed_query_rejects.2.2 env0 5 1 none (Or.inl rfl),
   C10_failed_query_rejects.2.1 (some (2 ^ 64 - 1)) 5 (Or.inr rfl)⟩

/-! ## Claim C3 -/

/-- C3 (amended): every receiver-side rejection sends `PreflightFail`
with its reason and then terminates the session: `handle_connection`
returns an error immediately, processing no further entries (instead of
resuming its receive loop as the claim states). -/
theorem C3_reject_terminates_amended :
    (∀ (nm : Option (List Nat)) (size : Nat) (env : EntryEnv)
        (rest : List (FileMeta × EntryEnv)),
      handle_connection ((⟨nm, size, false, OVERWRITE_NO⟩,
          { env with dstExists := false, finalExists := true }) :: rest)
        = ([.preflightFail (.text "File exists, skipping")], false)) ∧
    (∀ (nm : Option (List Nat)) (size : Nat) (env : EntryEnv)
        (rest : List (FileMeta × EntryEnv)),
      handle_connection ((⟨nm, size, false, OVERWRITE_ASK⟩,
          { env with dstExists := false, finalExists := true, promptYes := false }) :: rest)
        = ([.preflightFail (.text "User declined overwrite")], false)) ∧
    (∀ (nm : Option (List Nat)) (size mode : Nat) (env : EntryEnv)
        (rest : List (FileMeta × EntryEnv)),
      handle_connection ((⟨nm, size, false, mode⟩,
          { env with dstExists := false, finalExists := false,
                     createParentsOk := true, availQuery := none }) :: rest)
        = ([.preflightFail (.insufficientSpace size (2 ^ 64 - 1))], false)) ∧
    (∀ (nm : Option (List Nat)) (env : EntryEnv) (rest : List (FileMeta × EntryEnv)),
      handle_connection ((⟨nm, 0, true, OVERWRITE_ASK⟩,
          { env with dstExists := false, finalExists := true, finalIsDir := false,
                     promptYes := false }) :: rest)
        = ([.preflightFail (.text "User declined directory overwrite")], false)) := by
  refine ⟨?_, ?_, ?_, ?_⟩
  · intro nm size env rest
    simp [handle_connection, handle_file_entry, OVERWRITE_NO, OVERWRITE_ASK]
  · intro nm size env rest
    simp [handle_connection, handle_file_entry, OVERWRITE_ASK]
  · intro nm size mode env rest
    simp [handle_connection, handle_file_entry, check_disk_space, get_available_space]
  · intro nm env rest
    simp [handle_connection, handle_directory_entry, OVERWRITE_ASK]

/-- C3 counterexample: after rejecting the first entry (existing file,
mode No) the session ends with an error and the second entry — which on
its own would succeed — is never processed, so the receiver does not
resume listening for the next Meta. -/
theorem C3_resume_counterexample :
    handle_connection
        [(⟨some [97], 1, false, OVERWRITE_NO⟩, { env0 with finalExists := true }),
         (⟨some [98], 0, true, OVERWRITE_YES⟩, env0)]
      = ([.preflightFail (.text "File exists, skipping")], false) ∧
    handle_connection [(⟨some [98], 0, true, OVERWRITE_YES⟩, env0)]
      = ([.preflightOk 0, .transferResult true 0], true) := by
  decide

/-! ## Claim C6 -/

/-- C6 (amended): for a FILE entry whose final path exists, Yes proceeds
(as if the path were absent), No rejects with "File exists, skipping",
Ask proceeds exactly when the prompt answers yes and otherwise rejects
with "User declined overwrite"; when the path does not exist the mode is
never consulted.  For a DIRECTORY entry the decision is consulted only
when the final path exists as a non-directory: there Ask can reject with
"User declined directory overwrite", while No behaves like Yes (the
existing file is replaced); a directory entry whose path exists as a
directory proceeds unconditionally. -/
theorem C6_overwrite_decision_amended :
    (∀ (env : EntryEnv) (size : Nat),
      handle_file_entry { env with finalExists := true } size OVERWRITE_NO
        = ⟨[.preflightFail (.text "File exists, skipping")], false, false, false⟩) ∧
    (∀ (env : EntryEnv) (size : Nat),
      handle_file_entry { env with finalExists := true, promptYes := false }
          size OVERWRITE_ASK
        = ⟨[.preflightFail (.text "User declined overwrite")], false, false, false⟩) ∧
    (∀ (env : EntryEnv) (size : Nat),
      handle_file_entry { env with finalExists := true, promptYes := true }
          size OVERWRITE_ASK
        = handle_file_entry { env with finalExists := false, promptYes := true }
          size OVERWRITE_ASK) ∧
    (∀ (env : EntryEnv) (size : Nat),
      handle_file_entry { env with finalExists := true } size OVERWRITE_YES
        = handle_file_entry { env with finalExists := false } size OVERWRITE_YES) ∧
    (∀ (env : EntryEnv) (size m1 m2 : Nat),
      handle_file_entry { env with finalExists := false } size m1
        = handle_file_entry { env with finalExists := false } size m2) ∧
    (∀ (env : EntryEnv) (mode : Nat),
      handle_directory_entry { env with finalExists := true, finalIsDir := true } mode
        = ([.preflightOk 0, .transferResult true 0], true)) ∧
    (∀ env : EntryEnv,
      handle_directory_entry
          { env with finalExists := true, finalIsDir := false, promptYes := false }
          OVERWRITE_ASK
        = ([.preflightFail (.text "User declined directory overwrite")], false)) ∧
    (∀ env : EntryEnv,
      handle_directory_entry { env with finalExists := true, finalIsDir := false }
          OVERWRITE_NO
        = handle_directory_entry { env with finalExists := true, finalIsDir := false }
          OVERWRITE_YES) := by
  refine ⟨?_, ?_, ?_, ?_, ?_, ?_, ?_, ?_⟩
  · intro env size
    simp [handle_file_entry, OVERWRITE_ASK, OVERWRITE_YES, OVERWRITE_NO]
  · intro env size
    simp [handle_file_entry, OVERWRITE_ASK, OVERWRITE_YES, OVERWRITE_NO]
  · intro env size
    simp [handle_file_entry, OVERWRITE_ASK, OVERWRITE_YES, OVERWRITE_NO]
  · intro env size
    simp [handle_file_entry, OVERWRITE_ASK, OVERWRITE_YES, OVERWRITE_NO]
  · intro env size m1 m2
    simp [handle_file_entry]
  · intro env mode
    simp [handle_directory_entry]
  · intro env
    simp [handle_directory_entry, OVERWRITE_ASK, OVERWRITE_YES, OVERWRITE_NO]
  · intro env
    simp [handle_directory_entry, OVERWRITE_ASK, OVERWRITE_YES, OVERWRITE_NO]

/-- C6 counterexample: a directory entry whose final path exists is not
rejected under mode No — whether the path is a directory (reused) or a
file (silently replaced) the handler proceeds and reports success,
contradicting the claim that No rejects with "exists, skipping" for every
entry kind. -/
theorem C6_directory_no_counterexample :
    handle_directory_entry { env0 with finalExists := true, finalIsDir := true }
        OVERWRITE_NO
      = ([.preflightOk 0, .transferResult true 0], true) ∧
    handle_directory_entry { env0 with finalExists := true, finalIsDir := false }
        OVERWRITE_NO
      = ([.preflightOk 0, .transferResult true 0], true) := by
  decide

/-! ## Claim C8 -/

/-- C8: an accepted file streams into `<final_path>.ncp_temp`; whenever
`handle_file_entry` fails — in particular on any streaming I/O failure —
no temporary file remains, the final path is untouched and no
TransferResult was sent; only on full success is the temporary file
renamed onto the final path, followed by `TransferResult{ok=true,
bytes_received = file_size}`; and a failing file handler aborts the whole
session. -/
theorem C8_atomic_materialization :
    (∀ final : String, temp_path final = final ++ ".ncp_temp") ∧
    (∀ (env : EntryEnv) (size mode : Nat),
      ((handle_file_entry env size mode).ok = false →
        (handle_file_entry env size mode).tempLeft = false ∧
        (handle_file_entry env size mode).finalReplaced = false ∧
        ∀ (b : Bool) (n : Nat),
          Msg.transferResult b n ∉ (handle_file_entry env size mode).sent) ∧
      ((handle_file_entry env size mode).ok = true →
        (handle_file_entry env size mode).finalReplaced = true ∧
        (handle_file_entry env size mode).tempLeft = false ∧
        (handle_file_entry env size mode).sent
          = [.preflightOk (get_available_space env.availQuery),
             .transferResult true env.transferStartSize])) ∧
    (∀ (m : FileMeta) (env : EntryEnv) (rest : List (FileMeta × EntryEnv)),
      m.is_dir = false → env.dstExists = false →
      (handle_file_entry env m.size m.overwrite_mode).ok = false →
      handle_connection ((m, env) :: rest)
        = ((handle_file_entry env m.size m.overwrite_mode).sent, false)) := by
  refine ⟨fun final => rfl, ?_, ?_⟩
  · intro env size mode
    rcases hrec : recv_loop env.transferStartSize 0 env.failChunk with _ | t
    · simp only [handle_file_entry, hrec]
      split_ifs <;> simp
    · have ht : t = env.transferStartSize := recv_loop_total _ _ _ _ hrec
      subst ht
      simp only [handle_file_entry, hrec]
      split_ifs <;> simp
  · intro m env rest hdir hdst hok
    simp [handle_connection, hdst, hdir, hok]

/-- C8 witness: a run whose streaming fails at its first chunk (a 1-byte
transfer failing at chunk 0) ends with no temporary file, an untouched
final path and no TransferResult; a fully successful run (0-byte file:
the loop completes, the temporary file is renamed) sends
`TransferResult{ok=true, 0}`. -/
theorem C8_atomic_materialization_witness :
    (handle_file_entry { env0 with transferStartSize := 1, failChunk := some 0 } 0 1).ok
      = false ∧
    (handle_file_entry { env0 with transferStartSize := 1, failChunk := some 0 }
        0 1).tempLeft = false ∧
    (handle_file_entry { env0 with transferStartSize := 1, failChunk := some 0 }
        0 1).finalReplaced = false ∧
    (∀ (b : Bool) (n : Nat),
      Msg.transferResult b n
        ∉ (handle_file_entry { env0 with transferStartSize := 1, failChunk := some 0 }
            0 1).sent) ∧
    (handle_file_entry env0 0 1).ok = true ∧
    (handle_file_entry env0 0 1).sent = [.preflightOk 0, .transferResult true 0] := by
  have hcd : check_disk_space (some 0) 0 = true := by decide
  have hr1 : recv_loop 1 0 (some 0) = none := by
    rw [recv_loop.eq_def]
    norm_num
  have hr0 : recv_loop 0 0 none = some 0 := recv_loop_none 0 0
  have hfail :
      (handle_file_entry { env0 with transferStartSize := 1, failChunk := some 0 }
        0 1).ok = false := by
    simp [handle_file_entry, env0, hcd, hr1]
  have hsucc : (handle_file_entry env0 0 1).ok = true := by
    simp [handle_file_entry, env0, hcd, hr0]
  have h1 := (C8_atomic_materialization.2.1
      { env0 with transferStartSize := 1, failChunk := some 0 } 0 1).1 hfail
  have h2 := (C8_atomic_materialization.2.1 env0 0 1).2 hsucc
  exact ⟨hfail, h1.1, h1.2.1, h1.2.2, hsucc,
    by simpa [env0, get_available_space] using h2.2.2⟩

/-! ## Walker lemmas -/

theorem byteCmp_eq_iff (a : List Nat) : ∀ b, byteCmp a b = Ordering.eq ↔ a = b := by
  induction a with
  | nil => intro b; cases b <;> simp [byteCmp]
  | cons x as ih =>
      intro b
      cases b with
      | nil => simp [byteCmp]
      | cons y bs =>
          simp only [byteCmp, List.cons.injEq]
          split_ifs with h1 h2
          · constructor
            · intro hc; exact absurd hc (by decide)
            · rintro ⟨rfl, -⟩; omega
          · constructor
            · intro hc; exact absurd hc (by decide)
            · rintro ⟨rfl, -⟩; omega
          · have hxy : x = y := by omega
            subst hxy
            simp [ih bs]
  
theorem byteCmp_gt_iff_lt (a : List Nat) : ∀ b, byteCmp a b = Ordering.gt ↔ byteCmp b a = Ordering.lt := by
  induction a with
  | nil => intro b; cases b <;> simp [byteCmp]
  | cons x as ih =>
      intro b
      cases b with
      | nil => simp [byteCmp]
      | cons y bs =>
          rcases Nat.lt_trichotomy x y with h | h | h
          · rw [byteCmp, byteCmp, if_pos h, if_neg (by omega), if_pos h]
            simp
          · subst h
            rw [byteCmp, byteCmp, if_neg (by omega), if_neg (by omega),
              if_neg (by omega), if_neg (by omega)]
            exact ih bs
          · rw [byteCmp, byteCmp, if_neg (by omega), if_pos h, if_pos h]
            simp

theorem byteCmp_le_trans (a : List Nat) :
    ∀ b c, byteCmp a b ≠ Ordering.gt → byteCmp b c ≠ Ordering.gt →
      byteCmp a c ≠ Ordering.gt := by
  induction a with
  | nil => intro b c _ _; cases c <;> simp [byteCmp]
  | cons x as ih =>
      intro b c h1 h2
      cases b with
      | nil => simp [byteCmp] at h1
      | cons y bs =>
          cases c with
          | nil => simp [byteCmp] at h2
          | cons z cs =>
              rw [byteCmp] at h1 h2 ⊢
              split_ifs at h1 with hxy hyx
              · split_ifs at h2 with hyz hzy
                · rw [if_pos (by omega)]; simp
                · exact absurd rfl h2
                · rw [if_pos (by omega)]; simp
              · exact absurd rfl h1
              · split_ifs at h2 with hyz hzy
                · rw [if_pos (by omega)]; simp
                · exact absurd rfl h2
                · rw [if_neg (by omega), if_neg (by omega)]
                  exact ih bs cs h1 h2

theorem byteCmp_antisymm (a b : List Nat) (h1 : byteCmp a b ≠ Ordering.gt)
    (h2 : byteCmp b a ≠ Ordering.gt) : a = b := by
  rcases h : byteCmp a b with _ | _ | _
  · exact absurd ((byteCmp_gt_iff_lt b a).mpr h) h2
  · exact (byteCmp_eq_iff a b).mp h
  · exact absurd h h1

theorem entryLE_total (x y : FileEntry) : entryLE x y ∨ entryLE y x := by
  unfold entryLE compare_entries
  by_cases hd : x.is_dir = y.is_dir
  · rw [if_neg (by simp [hd]), if_neg (by simp [hd])]
    rcases h : byteCmp x.relative_path y.relative_path with _ | _ | _
    · left; simp [h]
    · left; simp [h]
    · right
      rw [(byteCmp_gt_iff_lt _ _).mp h]
      simp
  · rw [if_pos hd, if_pos (fun hc => hd hc.symm)]
    cases hxv : x.is_dir
    · right
      have hyv : y.is_dir = true := by
        cases hy2 : y.is_dir
        · exact absurd (hxv.trans hy2.symm) hd
        · rfl
      rw [hyv]
      simp
    · left
      simp

theorem entryLE_trans (x y z : FileEntry) :
    entryLE x y → entryLE y z → entryLE x z := by
  intro h1 h2
  unfold entryLE compare_entries at h1 h2 ⊢
  by_cases hx : x.is_dir <;> by_cases hy : y.is_dir <;> by_cases hz : z.is_dir <;>
    simp [hx, hy, hz] at h1 h2 ⊢ <;>
    exact byteCmp_le_trans _ _ _ h1 h2

theorem entryLE_antisymm (x y : FileEntry) (h1 : entryLE x y) (h2 : entryLE y x) :
    x.is_dir = y.is_dir ∧ x.relative_path = y.relative_path := by
  unfold entryLE compare_entries at h1 h2
  by_cases hd : x.is_dir = y.is_dir
  · refine ⟨hd, ?_⟩
    rw [if_neg (by simp [hd])] at h1
    rw [if_neg (by simp [hd])] at h2
    exact byteCmp_antisymm _ _ h1 h2
  · exfalso
    rw [if_pos hd] at h1
    rw [if_pos (fun hc => hd hc.symm)] at h2
    cases hxv : x.is_dir
    · rw [hxv] at h1
      simp at h1
    · have hyv : y.is_dir = false := by
        cases hy2 : y.is_dir
        · rfl
        · exact absurd (hxv.trans hy2.symm) hd
      rw [hyv] at h2
      simp at h2

theorem goodName_spec (n : List Nat) (h : goodName n = true) :
    n ≠ [] ∧ 47 ∉ n ∧ n ≠ [46] ∧ n ≠ [46, 46] := by
  simp only [goodName, Bool.and_eq_true, Bool.not_eq_true', List.isEmpty_eq_false,
    decide_eq_false_iff_not] at h
  exact ⟨h.1.1.1, h.1.1.2, h.1.2, h.2⟩

theorem wfTree_dir (cs : FsForest) : wfTree (.dir cs) = wfForest cs := rfl

theorem wfForest_cons (n : List Nat) (t : FsTree) (rest : FsForest)
    (h : wfForest (.cons n t rest) = true) :
    goodName n = true ∧ wfTree t = true ∧ wfForest rest = true ∧ n ∉ namesOf rest := by
  simp only [wfForest, Bool.and_eq_true, Bool.not_eq_true', decide_eq_false_iff_not] at h
  exact ⟨h.1.1.1, h.1.1.2, h.1.2, h.2⟩

theorem pjoin_ne_dot (p n : List Nat) (hn : goodName n = true) : pjoin p n ≠ [46] := by
  obtain ⟨-, -, h46, -⟩ := goodName_spec n hn
  unfold pjoin
  split_ifs with hp
  · exact h46
  · cases p with
    | nil => simp
    | cons a p' => simp

theorem pjoin_inj (p : List Nat) {a b : List Nat} (h : pjoin p a = pjoin p b) : a = b := by
  unfold pjoin at h
  split_ifs at h
  · exact h
  · simpa using h

theorem noslash_ext_inj (a : List Nat) :
    ∀ (b s t : List Nat), 47 ∉ a → 47 ∉ b → a ++ 47 :: s = b ++ 47 :: t →
      a = b ∧ s = t := by
  induction a with
  | nil =>
      intro b s t _ hb h
      cases b with
      | nil => simpa using h
      | cons y bs =>
          simp only [List.nil_append, List.cons_append, List.cons.injEq] at h
          exfalso
          apply hb
          rw [← h.1]
          exact List.mem_cons_self _ _
  | cons x as ih =>
      intro b s t ha hb h
      cases b with
      | nil =>
          simp only [List.cons_append, List.nil_append, List.cons.injEq] at h
          exfalso
          apply ha
          rw [h.1]
          exact List.mem_cons_self _ _
      | cons y bs =>
          simp only [List.cons_append, List.cons.injEq] at h
          obtain ⟨rfl, h2⟩ := h
          have ha' : 47 ∉ as := fun hc => ha (List.mem_cons_of_mem _ hc)
          have hb' : 47 ∉ bs := fun hc => hb (List.mem_cons_of_mem _ hc)
          obtain ⟨rfl, rfl⟩ := ih bs s t ha' hb' h2
          exact ⟨rfl, rfl⟩

theorem relExt_extend (j nm r : List Nat) (hj : j ≠ [46])
    (h : relExt (pjoin j nm) r) : ∃ s, r = j ++ 47 :: s := by
  unfold pjoin at h
  rw [if_neg hj] at h
  rcases h with rfl | ⟨s, rfl⟩
  · exact ⟨nm, rfl⟩
  · exact ⟨nm ++ 47 :: s, by simp⟩

theorem relExt_ne_base (j nm r : List Nat) (hnm : goodName nm = true)
    (h : relExt (pjoin j nm) r) : r ≠ j := by
  obtain ⟨hne, -, h46, -⟩ := goodName_spec nm hnm
  by_cases hj : j = [46]
  · subst hj
    unfold pjoin at h
    rw [if_pos rfl] at h
    rcases h with rfl | ⟨s, rfl⟩
    · exact h46
    · intro hcon
      have hpos : 0 < nm.length := List.length_pos.mpr hne
      have := congrArg List.length hcon
      simp at this
      omega
  · obtain ⟨s, rfl⟩ := relExt_extend j nm r hj h
    intro hcon
    have := congrArg List.length hcon
    simp at this

theorem relExt_disjoint (p : List Nat) {a b : List Nat} (ha : goodName a = true)
    (hb : goodName b = true) (hne : a ≠ b) (r : List Nat) :
    ¬(relExt (pjoin p a) r ∧ relExt (pjoin p b) r) := by
  obtain ⟨hane, ha47, -, -⟩ := goodName_spec a ha
  obtain ⟨hbne, hb47, -, -⟩ := goodName_spec b hb
  rintro ⟨hra, hrb⟩
  unfold pjoin at hra hrb
  split_ifs at hra hrb with hp
  · rcases hra with rfl | ⟨s, rfl⟩
    · rcases hrb with h | ⟨t, h⟩
      · exact hne h
      · exact ha47 (h ▸ List.mem_append_right b (List.mem_cons_self _ _))
    · rcases hrb with h | ⟨t, h⟩
      · exact hb47 (h.symm ▸ List.mem_append_right a (List.mem_cons_self _ _))
      · exact hne (noslash_ext_inj a b s t ha47 hb47 h).1
  · rcases hra with rfl | ⟨s, rfl⟩
    · rcases hrb with h | ⟨t, h⟩
      · exact hne (by simpa using h)
      · rw [List.append_assoc] at h
        have h2 : 47 :: a = 47 :: (b ++ 47 :: t) := List.append_cancel_left h
        have h3 : a = b ++ 47 :: t := by simpa using h2
        exact ha47 (h3 ▸ List.mem_append_right b (List.mem_cons_self _ _))
    · rcases hrb with h | ⟨t, h⟩
      · rw [List.append_assoc] at h
        have h2 : 47 :: (a ++ 47 :: s) = 47 :: b := List.append_cancel_left h
        have h3 : a ++ 47 :: s = b := by simpa using h2
        exact hb47 (h3 ▸ List.mem_append_right a (List.mem_cons_self _ _))
      · rw [List.append_assoc, List.append_assoc] at h
        have h2 : a ++ 47 :: s = b ++ 47 :: t := by
          have := List.append_cancel_left h
          simpa using this
        exact hne (noslash_ext_inj a b s t ha47 hb47 h2).1

mutual
theorem walkTree_rel (p n : List Nat) (t : FsTree) (hn : goodName n = true)
    (hw : wfTree t = true) :
    ∀ e ∈ walkTree p n t, relExt (pjoin p n) e.relative_path := by
  cases t with
  | file sz =>
      intro e he
      simp only [walkTree, List.mem_singleton] at he
      subst he
      exact Or.inl rfl
  | dir cs =>
      intro e he
      simp only [walkTree, List.mem_cons] at he
      rcases he with rfl | he
      · exact Or.inl rfl
      · have hwf : wfForest cs = true := by rwa [wfTree_dir] at hw
        obtain ⟨nm, -, hg, hext⟩ := walkForest_rel (pjoin p n) cs hwf e he
        obtain ⟨s, hs⟩ := relExt_extend (pjoin p n) nm _ (pjoin_ne_dot p n hn) hext
        exact Or.inr ⟨s, hs⟩
theorem walkForest_rel (p : List Nat) (f : FsForest) (hw : wfForest f = true) :
    ∀ e ∈ walkForest p f, ∃ nm, nm ∈ namesOf f ∧ goodName nm = true ∧
      relExt (pjoin p nm) e.relative_path := by
  cases f with
  | nil =>
      intro e he
      simp [walkForest] at he
  | cons n t rest =>
      intro e he
      obtain ⟨hg, hwt, hwrest, -⟩ := wfForest_cons n t rest hw
      simp only [walkForest, List.mem_append] at he
      rcases he with he | he
      · exact ⟨n, List.mem_cons_self _ _, hg, walkTree_rel p n t hg hwt e he⟩
      · obtain ⟨nm, hmem, hgood, hext⟩ := walkForest_rel p rest hwrest e he
        exact ⟨nm, List.mem_cons_of_mem _ hmem, hgood, hext⟩
end

mutual
theorem walkTree_nodup (p n : List Nat) (t : FsTree) (hn : goodName n = true)
    (hw : wfTree t = true) :
    ((walkTree p n t).map FileEntry.relative_path).Nodup := by
  cases t with
  | file sz => simp [walkTree]
  | dir cs =>
      have hwf : wfForest cs = true := by rwa [wfTree_dir] at hw
      simp only [walkTree, List.map_cons, List.nodup_cons]
      refine ⟨?_, walkForest_nodup (pjoin p n) cs hwf⟩
      intro hmem
      rw [List.mem_map] at hmem
      obtain ⟨e, he, hrel⟩ := hmem
      obtain ⟨nm, -, hg, hext⟩ := walkForest_rel (pjoin p n) cs hwf e he
      exact relExt_ne_base (pjoin p n) nm _ hg hext hrel
theorem walkForest_nodup (p : List Nat) (f : FsForest) (hw : wfForest f = true) :
    ((walkForest p f).map FileEntry.relative_path).Nodup := by
  cases f with
  | nil => simp [walkForest]
  | cons n t rest =>
      obtain ⟨hg, hwt, hwrest, hnm⟩ := wfForest_cons n t rest hw
      simp only [walkForest, List.map_append, List.nodup_append]
      refine ⟨walkTree_nodup p n t hg hwt, walkForest_nodup p rest hwrest, ?_⟩
      intro x hx1 hx2
      rw [List.mem_map] at hx1 hx2
      obtain ⟨e1, he1, hrel1⟩ := hx1
      obtain ⟨e2, he2, hrel2⟩ := hx2
      have hext1 := walkTree_rel p n t hg hwt e1 he1
      obtain ⟨nm, hmem, hgood, hext2⟩ := walkForest_rel p rest hwrest e2 he2
      have hne : n ≠ nm := fun hc => hnm (hc ▸ hmem)
      exact relExt_disjoint p hg hgood hne x ⟨hrel1 ▸ hext1, hrel2 ▸ hext2⟩
end

theorem walk_directory_nodup (cs : FsForest) (hw : wfForest cs = true) :
    ((walk_directory cs).map FileEntry.relative_path).Nodup := by
  have hperm : (walk_directory cs).Perm (rootEntry :: walkForest [46] cs) :=
    List.perm_insertionSort entryLE _
  have hbase : ((rootEntry :: walkForest [46] cs).map FileEntry.relative_path).Nodup := by
    simp only [List.map_cons, List.nodup_cons, rootEntry]
    refine ⟨?_, walkForest_nodup [46] cs hw⟩
    intro hmem
    rw [List.mem_map] at hmem
    obtain ⟨e, he, hrel⟩ := hmem
    obtain ⟨nm, -, hg, hext⟩ := walkForest_rel [46] cs hw e he
    exact relExt_ne_base [46] nm _ hg hext hrel
  exact ((hperm.map FileEntry.relative_path).nodup_iff).mpr hbase

theorem walk_directory_sorted (cs : FsForest) :
    List.Sorted entryLE (walk_directory cs) := by
  haveI : IsTotal FileEntry entryLE := ⟨entryLE_total⟩
  haveI : IsTrans FileEntry entryLE := ⟨fun a b c => entryLE_trans a b c⟩
  exact List.sorted_insertionSort entryLE _

theorem rootEntry_mem_walk (cs : FsForest) : rootEntry ∈ walk_directory cs :=
  (List.perm_insertionSort entryLE _).mem_iff.mpr (List.mem_cons_self _ _)

theorem sorted_head_eq (l : List FileEntry) (hs : List.Sorted entryLE l)
    (hn : (l.map FileEntry.relative_path).Nodup) (x : FileEntry) (hx : x ∈ l)
    (hmin : ∀ e ∈ l, entryLE x e) : l.head? = some x := by
  cases l with
  | nil => cases hx
  | cons h t =>
      simp only [List.head?_cons, Option.some.injEq]
      rcases List.mem_cons.mp hx with rfl | hxt
      · rfl
      · have hle1 : entryLE h x := (List.sorted_cons.mp hs).1 x hxt
        have hle2 : entryLE x h := hmin h (List.mem_cons_self h t)
        have heq := entryLE_antisymm h x hle1 hle2
        have hmm : h.relative_path ∈ t.map FileEntry.relative_path := by
          rw [heq.2]
          exact List.mem_map_of_mem _ hxt
        simp only [List.map_cons, List.nodup_cons] at hn
        exact absurd hmm hn.1

/-! ## Claim C5 -/

/-- C5 (amended): for every well-formed tree, `walk_directory` returns a
sequence with pairwise-distinct relative paths, sorted by the
`compare_entries` order (every directory entry precedes every file entry;
within the same kind, byte-wise ascending relative path); the root entry
`"."` is always an element, and it is the first entry whenever no
directory entry's relative path byte-compares below `"."` — a
subdirectory whose name starts with a byte below 46 precedes the root
(see the counterexample). -/
theorem C5_walk_ordering_amended (cs : FsForest) (hw : wfForest cs = true) :
    ((walk_directory cs).map FileEntry.relative_path).Nodup ∧
    List.Sorted entryLE (walk_directory cs) ∧
    rootEntry ∈ walk_directory cs ∧
    ((∀ e ∈ walk_directory cs, e.is_dir = true →
        byteCmp [46] e.relative_path ≠ Ordering.gt) →
      (walk_directory cs).head? = some rootEntry) := by
  refine ⟨walk_directory_nodup cs hw, walk_directory_sorted cs,
    rootEntry_mem_walk cs, ?_⟩
  intro hmin
  apply sorted_head_eq _ (walk_directory_sorted cs) (walk_directory_nodup cs hw)
    rootEntry (rootEntry_mem_walk cs)
  intro e he
  unfold entryLE compare_entries
  cases hd : e.is_dir
  · rw [if_pos (by simp [rootEntry, hd])]
    simp [rootEntry]
  · rw [if_neg (by simp [rootEntry, hd])]
    exact hmin e he hd

/-- C5 witness: the tree of spec §8 (`sub/b.txt`, `a.txt`) walks to
exactly `[".", "sub", "a.txt", "sub/b.txt"]` with the root first and all
relative paths distinct. -/
theorem C5_walk_ordering_witness :
    wfForest csEx = true ∧
    walk_directory csEx =
      [rootEntry, ⟨[115, 117, 98], true, 0⟩, ⟨[97, 46, 116, 120, 116], false, 8⟩,
       ⟨[115, 117, 98, 47, 98, 46, 116, 120, 116], false, 8⟩] ∧
    (walk_directory csEx).head? = some rootEntry ∧
    ((walk_directory csEx).map FileEntry.relative_path).Nodup :=
  ⟨by decide, by decide, (C5_walk_ordering_amended csEx (by decide)).2.2.2 (by decide),
   (C5_walk_ordering_amended csEx (by decide)).1⟩

/-- C5 counterexample: a well-formed root whose single subdirectory is
named `"-"` (byte 45 < 46) sorts before the root entry `"."`, so the root
is not the first entry of the walk. -/
theorem C5_root_not_first_counterexample :
    wfForest csBad = true ∧
    walk_directory csBad = [⟨[45], true, 0⟩, rootEntry] ∧
    (walk_directory csBad).head? ≠ some rootEntry := by
  decide

end NCP
